import Mathlib

/-!
Verification of the chunking and retrieval-index core of the legal document
assistant (source: `app.py`).

Text is modelled as `List Char`.  Python `str.strip()` is modelled by
`pyStrip` (leading/trailing whitespace removal), Python `str.split(sep)` for a
non-empty separator by `pySplit` (leftmost, non-overlapping occurrences), and
Python `range(0, stop, step)` by `pythonRange0`, which returns `none` when
`step = 0` — modelling the `ValueError` that `range` raises in that case.

The TF-IDF vectorizer (`sklearn.TfidfVectorizer`) computes real-valued
weights through logarithms; the claims under verification depend only on
(a) which corpus the matrix was fitted on, and (b) the relative order of the
cosine-similarity scores.  The matrix is therefore modelled abstractly by the
list of texts it was fitted on (`TfidfMatrix`, `fit_transform` being
deterministic in its input), the possibility that `fit_transform` raises
(e.g. `min_df`/`max_df` pruning leaving an empty vocabulary) by a Boolean
oracle `fitOk`, and the numeric pipeline inside `search_documents`'s `try`
block by an oracle carrying the similarity row produced by
`cosine_similarity(transform(query), matrix).flatten()` (a rational-valued
list) together with the index order returned by `sims.argsort()` for it
(numpy's default sort is not stable, so the order of equal scores is
implementation-defined: the oracle's order is constrained only by the
documented contract `IsArgsortOf`); `none` models a raised exception inside
the `try` block.
-/

/-- Python `str.strip()`: drop leading and trailing whitespace characters. -/
def pyStrip (l : List Char) : List Char :=
  ((l.dropWhile Char.isWhitespace).reverse.dropWhile Char.isWhitespace).reverse

/-- First occurrence of `sep` in a list: returns the part strictly before the
occurrence and the part strictly after it, or `none` when `sep` does not
occur.  (For the empty separator this returns an occurrence at position 0;
all seven separators of the source are non-empty.) -/
def firstOcc (sep : List Char) : List Char → Option (List Char × List Char)
  | [] => if sep.isEmpty then some ([], []) else none
  | c :: rest =>
    if sep.isPrefixOf (c :: rest) then some ([], (c :: rest).drop sep.length)
    else
      match firstOcc sep rest with
      | none => none
      | some (pre, post) => some (c :: pre, post)

/-- Python `sep in text` (membership test for a substring), computed from the
first-occurrence search. -/
def occursIn (sep text : List Char) : Bool :=
  (firstOcc sep text).isSome

/-- Fuel-driven worker for `pySplit`.  Each recursive call strips at least
`sep.length ≥ 1` characters (for a non-empty separator), so fuel
`text.length + 1` is never exhausted and the base case is unreachable. -/
def pySplitFuel (sep : List Char) : Nat → List Char → List (List Char)
  | 0, l => [l]
  | fuel + 1, l =>
    match firstOcc sep l with
    | none => [l]
    | some (pre, post) => pre :: pySplitFuel sep fuel post

/-- Python `text.split(sep)` for a non-empty separator: split at each
leftmost non-overlapping occurrence. -/
def pySplit (sep text : List Char) : List (List Char) :=
  pySplitFuel sep (text.length + 1) text

/-- Python `range(0, stop, step)`: `none` models the `ValueError` raised when
`step = 0`; a negative step yields the empty range (since `stop ≥ 0`). -/
def pythonRange0 (stop : Nat) (step : Int) : Option (List Nat) :=
  if step = 0 then none
  else if step < 0 then some []
  else some ((List.range ((stop + step.toNat - 1) / step.toNat)).map (· * step.toNat))

/-- `TextSplitter` configuration (source defaults: `chunk_size = 1500`,
`chunk_overlap = 300`). -/
structure TextSplitter where
  chunk_size : Nat
  chunk_overlap : Nat
deriving DecidableEq

/-- The priority-ordered separator list of `TextSplitter.__init__`. -/
def separators : List (List Char) :=
  ["\n\nArticle ".toList, "\n\nSection ".toList, "\n\nClause ".toList,
   "\n\n".toList, "\n".toList, ". ".toList, " ".toList]

/-- One iteration of the greedy packing loop of `split_text` (lines 91–98):
state is `(chunks, current_chunk)`; the incoming `sectionText` is already
re-prefixed with the separator when appropriate. -/
def packStep (maxSize : Nat) (st : List (List Char) × List Char)
    (sectionText : List Char) : List (List Char) × List Char :=
  if st.2.length + sectionText.length ≤ maxSize then
    (st.1, st.2 ++ sectionText)
  else
    ((if st.2.isEmpty then st.1 else st.1 ++ [pyStrip st.2]), sectionText)

/-- The `section_text` values of the loop: piece `i > 0` is re-prefixed with
the separator (line 92). -/
def sectionTexts (sep text : List Char) : List (List Char) :=
  (pySplit sep text).enum.map (fun p => if 0 < p.1 then sep ++ p.2 else p.2)

/-- The delimiter-split branch of `split_text` (lines 88–101): greedy packing
of the separator-split pieces, flushing the stripped buffer when full and
once more at the end. -/
def splitBySep (sep : List Char) (maxSize : Nat) (text : List Char) :
    List (List Char) :=
  let st := (sectionTexts sep text).foldl (packStep maxSize) ([], [])
  if st.2.isEmpty then st.1 else st.1 ++ [pyStrip st.2]

/-- `TextSplitter.split_text` (lines 85–109).  Returns `none` when the
fallback slicing loop raises (`range` with zero step, i.e.
`chunk_size = chunk_overlap`); otherwise the list of chunks after the final
length-50 filter. -/
def TextSplitter.split_text (self : TextSplitter) (text : List Char) :
    Option (List (List Char)) :=
  let chunks0 :=
    match separators.find? (fun sep => occursIn sep text) with
    | some sep => splitBySep sep self.chunk_size text
    | none => []
  let chunksQ : Option (List (List Char)) :=
    if chunks0.isEmpty then
      (pythonRange0 text.length
          ((self.chunk_size : Int) - (self.chunk_overlap : Int))).map
        (fun idxs =>
          idxs.foldl
            (fun acc i =>
              let chunk := (text.drop i).take self.chunk_size
              if (pyStrip chunk).isEmpty then acc else acc ++ [pyStrip chunk])
            [])
    else some chunks0
  chunksQ.map (fun cs => cs.filter (fun c => 50 < (pyStrip c).length))

/-- One indexed segment (`Document` in the source).  `chunk_id` is the
segment's 0-based position among its own upload's accepted chunks; the
wall-clock `upload_date` metadata field carries no algorithmic content and is
omitted. -/
structure Document where
  content : List Char
  filename : String
  chunk_id : Nat
deriving DecidableEq

instance : Inhabited Document := ⟨⟨[], "", 0⟩⟩

/-- The fitted TF-IDF matrix, identified by the corpus texts it was fitted on
(`fit_transform` is deterministic in its input; row `i` of the numeric matrix
corresponds to `texts[i]`). -/
structure TfidfMatrix where
  texts : List (List Char)
deriving DecidableEq

/-- The mutable state of `DocumentProcessor`. -/
structure DocumentProcessor where
  documents : List Document
  document_vectors : Option TfidfMatrix
  is_fitted : Bool
deriving DecidableEq

/-- `DocumentProcessor.__init__` (lines 152–159). -/
def DocumentProcessor.init : DocumentProcessor := ⟨[], none, false⟩

/-- Per-file outcome dictionary of `process_file`. -/
inductive ProcessOutcome where
  | success (chunks : Nat) (content_length : Nat)
  | error (msg : String)
deriving DecidableEq

/-- `DocumentProcessor.process_file` (lines 199–228), from the point where
`text_content` has been extracted (format-specific extraction, lines 201–209,
is an external collaborator per the specification; its failure paths mutate
nothing and report an error outcome).  `fitOk` is the oracle for whether
`self.vectorizer.fit_transform(texts)` succeeds on the given texts; when it
raises (e.g. `min_df`/`max_df` pruning leaves an empty vocabulary), the outer
`except` reports an error while the already-appended documents are kept and
`document_vectors`/`is_fitted` are left unchanged.  The `str(e)` message of
that path comes from sklearn and is abstracted by a fixed placeholder. -/
def process_file (fitOk : List (List Char) → Bool) (self : DocumentProcessor)
    (filename : String) (text_content : List Char) :
    DocumentProcessor × ProcessOutcome :=
  if (pyStrip text_content).isEmpty then
    (self, .error ("No text content found in file"))
  else
    match TextSplitter.split_text ⟨1500, 300⟩ text_content with
    | none => (self, .error ("range() arg 3 must not be zero"))
    | some chunks =>
      let newDocs := chunks.enum.map (fun p => Document.mk p.2 filename p.1)
      let docs := self.documents ++ newDocs
      if docs.isEmpty then
        (⟨docs, self.document_vectors, self.is_fitted⟩,
         .success chunks.length text_content.length)
      else if fitOk (docs.map Document.content) then
        (⟨docs, some ⟨docs.map Document.content⟩, true⟩,
         .success chunks.length text_content.length)
      else
        (⟨docs, self.document_vectors, self.is_fitted⟩,
         .error ("fit_transform raised an exception"))

/-- `DocumentProcessor.clear_all` (lines 252–255). -/
def clear_all (_self : DocumentProcessor) : DocumentProcessor := ⟨[], none, false⟩

/-- The contract numpy documents for `sims.argsort()` (line 236) with the
default `kind='quicksort'` (an introsort, explicitly NOT stable): the result
is some permutation of the row indices `0, …, len(sims)-1` that puts the
scores in ascending order; the relative order of equal scores is
unspecified.  The concrete permutation numpy returns for a given array is
therefore supplied as part of the numeric-pipeline oracle, constrained only
by this predicate.  (For arrays at or below numpy's small-array cutoff the
introsort degenerates to a stable insertion sort; the counterexamples below
instantiate the oracle with exactly that actual output.) -/
def IsArgsortOf (ord : List Nat) (sims : List ℚ) : Prop :=
  List.Perm ord (List.range sims.length) ∧
  ord.Pairwise (fun i j => sims.getD i 0 ≤ sims.getD j 0)

instance (ord : List Nat) (sims : List ℚ) : Decidable (IsArgsortOf ord sims) := by
  unfold IsArgsortOf
  infer_instance

/-- Python `xs[-k:]` for an integer `k`: for `k > 0` the last `min k len`
elements; for `k = 0` the whole list (since `-0 = 0`); for `k < 0` the slice
`xs[(-k):]`. -/
def pySliceLast {α : Type} (xs : List α) (k : Int) : List α :=
  if 0 < k then xs.drop (xs.length - k.toNat) else xs.drop (-k).toNat

/-- The relevance threshold `0.001` of line 239, as the exact rational
`1/1000` written in lowest terms (so that comparisons against it evaluate by
kernel reduction). -/
def simThreshold : ℚ := ⟨1, 1000, by decide, by decide⟩

/-- The selection pipeline of `search_documents` on the similarity row
(lines 236–243), at the level of corpus indices: `ord` is the output of
`sims.argsort()` (oracle-supplied, see `IsArgsortOf`); take its last-`k`
slice, reverse it, keep the indices with score above `0.001`, and if that
filter removes everything fall back to the first three of the top indices
regardless of score.  (The source guards the fallback with
`and self.documents`, which always holds at this point because of the
emptiness guard at the top of `search_documents`.) -/
def searchSelect (ord : List Nat) (sims : List ℚ) (k : Int) : List (Nat × ℚ) :=
  let top := (pySliceLast ord k).reverse
  let results := top.filterMap (fun idx =>
    if simThreshold < sims.getD idx 0 then some (idx, sims.getD idx 0)
    else none)
  if results.isEmpty then
    (top.take 3).map (fun idx => (idx, sims.getD idx 0))
  else results

/-- `DocumentProcessor.search_documents` (lines 230–246; source default
`k = 15`).  `simsQ` is the oracle for the numeric pipeline inside the `try`
block: the similarity row
`cosine_similarity(self.vectorizer.transform([query]), self.document_vectors)
.flatten()` together with the index order `sims.argsort()` returns for it;
`none` models an exception raised inside the `try` block, which the
`except` turns into an empty result list. -/
def search_documents (self : DocumentProcessor)
    (simsQ : Option (List ℚ × List Nat)) (k : Int) : List (Document × ℚ) :=
  if !self.is_fitted || self.documents.isEmpty then []
  else
    match simsQ with
    | none => []
    | some simsOrd =>
      (searchSelect simsOrd.2 simsOrd.1 k).map
        (fun p => (self.documents.getD p.1 default, p.2))

/-- The corpus invariant of the specification: every stored segment is
whitespace-stripped and strictly longer than 50 characters. -/
def corpusInv (self : DocumentProcessor) : Prop :=
  ∀ d ∈ self.documents, pyStrip d.content = d.content ∧ 50 < d.content.length

/-- Consistency of the term-vector matrix with the corpus: whenever a matrix
is present, it was fitted on exactly the current corpus contents (one row per
segment, row `i` for segment `i`). -/
def matrixConsistent (self : DocumentProcessor) : Prop :=
  ∀ m, self.document_vectors = some m →
    m.texts = self.documents.map Document.content

instance (self : DocumentProcessor) : Decidable (matrixConsistent self) :=
  match h : self.document_vectors with
  | none => isTrue (fun _ hm => Option.noConfusion (h.symm.trans hm))
  | some m0 =>
      if he : m0.texts = self.documents.map Document.content then
        isTrue (fun _ hm => (Option.some_inj.mp (h.symm.trans hm)) ▸ he)
      else isFalse (fun hc => he (hc m0 h))

/-- Sequential ingestion of a list of `(filename, extracted text)` uploads —
the upload route (lines 387–410) calls `process_file` once per file. -/
def ingestAll (fitOk : List (List Char) → Bool) (st : DocumentProcessor)
    (uploads : List (String × List Char)) : DocumentProcessor :=
  uploads.foldl (fun s u => (process_file fitOk s u.1 u.2).1) st

/-- Maximum length of the lists in a list. -/
def maxLen (ls : List (List Char)) : Nat :=
  ls.foldr (fun s acc => max s.length acc) 0

/-! ### Properties of `pyStrip` -/

theorem pyStrip_length_le (l : List Char) : (pyStrip l).length ≤ l.length := by
  unfold pyStrip
  rw [List.length_reverse]
  calc ((l.dropWhile Char.isWhitespace).reverse.dropWhile Char.isWhitespace).length
      ≤ (l.dropWhile Char.isWhitespace).reverse.length :=
        (List.dropWhile_sublist _).length_le
    _ = (l.dropWhile Char.isWhitespace).length := List.length_reverse _
    _ ≤ l.length := (List.dropWhile_sublist _).length_le

theorem dropWhile_dropWhile_self (p : Char → Bool) (l : List Char) :
    (l.dropWhile p).dropWhile p = l.dropWhile p := by
  induction l with
  | nil => rfl
  | cons a t ih =>
    by_cases hp : p a
    · simp [List.dropWhile_cons, hp, ih]
    · simp [List.dropWhile_cons, hp]

theorem dropWhile_eq_self_of_append (p : Char → Bool) (a b : List Char)
    (h : (a ++ b).dropWhile p = a ++ b) : a.dropWhile p = a := by
  cases a with
  | nil => rfl
  | cons x t =>
    have hx : p x = false := by
      by_contra hpx
      rw [Bool.not_eq_false] at hpx
      rw [List.cons_append, List.dropWhile_cons, if_pos hpx] at h
      have hlen := congrArg List.length h
      have hle := (List.dropWhile_sublist (l := t ++ b) p).length_le
      rw [List.length_cons] at hlen
      omega
    simp [List.dropWhile_cons, hx]

theorem exists_append_dropWhile (p : Char → Bool) (l : List Char) :
    ∃ s, s ++ l.dropWhile p = l := by
  induction l with
  | nil => exact ⟨[], rfl⟩
  | cons a t ih =>
    by_cases hp : p a
    · obtain ⟨s, hs⟩ := ih
      exact ⟨a :: s, by simp [List.dropWhile_cons, hp, hs]⟩
    · exact ⟨[], by simp [List.dropWhile_cons, hp]⟩

theorem pyStrip_dropWhile (l : List Char) :
    (pyStrip l).dropWhile Char.isWhitespace = pyStrip l := by
  obtain ⟨s, hs⟩ :=
    exists_append_dropWhile Char.isWhitespace (l.dropWhile Char.isWhitespace).reverse
  have hdecomp : l.dropWhile Char.isWhitespace = pyStrip l ++ s.reverse := by
    unfold pyStrip
    calc l.dropWhile Char.isWhitespace
        = (l.dropWhile Char.isWhitespace).reverse.reverse := (List.reverse_reverse _).symm
      _ = (s ++ (l.dropWhile Char.isWhitespace).reverse.dropWhile Char.isWhitespace).reverse := by
          rw [hs]
      _ = ((l.dropWhile Char.isWhitespace).reverse.dropWhile Char.isWhitespace).reverse
            ++ s.reverse := by rw [List.reverse_append]
  exact dropWhile_eq_self_of_append Char.isWhitespace (pyStrip l) s.reverse
    (hdecomp ▸ dropWhile_dropWhile_self Char.isWhitespace l)

theorem pyStrip_idem (l : List Char) : pyStrip (pyStrip l) = pyStrip l := by
  have h1 : (pyStrip l).reverse.dropWhile Char.isWhitespace = (pyStrip l).reverse := by
    unfold pyStrip
    rw [List.reverse_reverse]
    exact dropWhile_dropWhile_self Char.isWhitespace _
  calc pyStrip (pyStrip l)
      = (((pyStrip l).dropWhile Char.isWhitespace).reverse.dropWhile
          Char.isWhitespace).reverse := rfl
    _ = ((pyStrip l).reverse.dropWhile Char.isWhitespace).reverse := by
        rw [pyStrip_dropWhile]
    _ = pyStrip l := by rw [h1, List.reverse_reverse]

/-! ### Bounds and strippedness for the chunker -/

theorem length_le_maxLen (ls : List (List Char)) (s : List Char) (hs : s ∈ ls) :
    s.length ≤ maxLen ls := by
  induction ls with
  | nil => cases hs
  | cons a t ih =>
    rcases List.mem_cons.mp hs with rfl | hs
    · exact le_max_left _ _
    · exact le_trans (ih hs) (le_max_right _ _)

theorem foldl_packStep_inv (maxSize L : Nat) (sts : List (List Char)) :
    ∀ acc : List (List Char) × List Char,
      (∀ s ∈ sts, s.length ≤ L) →
      (∀ c ∈ acc.1, c.length ≤ max maxSize L) →
      acc.2.length ≤ max maxSize L →
      (∀ c ∈ (sts.foldl (packStep maxSize) acc).1, c.length ≤ max maxSize L) ∧
        (sts.foldl (packStep maxSize) acc).2.length ≤ max maxSize L := by
  induction sts with
  | nil => exact fun acc _ h1 h2 => ⟨h1, h2⟩
  | cons s rest ih =>
    intro acc hsts h1 h2
    rw [List.foldl_cons]
    refine ih (packStep maxSize acc s) (fun u hu => hsts u (List.mem_cons_of_mem _ hu)) ?_ ?_
    · intro c hc
      unfold packStep at hc
      split at hc
      · exact h1 c hc
      · split at hc
        · exact h1 c hc
        · rcases List.mem_append.mp hc with hc | hc
          · exact h1 c hc
          · rw [List.mem_singleton] at hc
            subst hc
            exact le_trans (pyStrip_length_le _) h2
    · unfold packStep
      split
      · rw [List.length_append]
        exact le_trans (by assumption) (le_max_left _ _)
      · exact le_trans (hsts s (List.mem_cons_self _ _)) (le_max_right _ _)

theorem foldl_packStep_stripped (maxSize : Nat) (sts : List (List Char)) :
    ∀ acc : List (List Char) × List Char,
      (∀ c ∈ acc.1, pyStrip c = c) →
      ∀ c ∈ (sts.foldl (packStep maxSize) acc).1, pyStrip c = c := by
  induction sts with
  | nil => exact fun acc h => h
  | cons s rest ih =>
    intro acc h1
    rw [List.foldl_cons]
    refine ih (packStep maxSize acc s) ?_
    intro c hc
    unfold packStep at hc
    split at hc
    · exact h1 c hc
    · split at hc
      · exact h1 c hc
      · rcases List.mem_append.mp hc with hc | hc
        · exact h1 c hc
        · rw [List.mem_singleton] at hc
          subst hc
          exact pyStrip_idem _

theorem splitBySep_bound (sep : List Char) (maxSize : Nat) (text : List Char) :
    ∀ c ∈ splitBySep sep maxSize text,
      c.length ≤ max maxSize (maxLen (sectionTexts sep text)) := by
  intro c hc
  simp only [splitBySep] at hc
  have hinv := foldl_packStep_inv maxSize (maxLen (sectionTexts sep text))
    (sectionTexts sep text) ([], [])
    (fun s hs => length_le_maxLen _ s hs)
    (by intro u hu; cases hu)
    (by simp)
  split at hc
  · exact hinv.1 c hc
  · rcases List.mem_append.mp hc with hc | hc
    · exact hinv.1 c hc
    · rw [List.mem_singleton] at hc
      subst hc
      exact le_trans (pyStrip_length_le _) hinv.2

theorem splitBySep_stripped (sep : List Char) (maxSize : Nat) (text : List Char) :
    ∀ c ∈ splitBySep sep maxSize text, pyStrip c = c := by
  intro c hc
  simp only [splitBySep] at hc
  have hinv := foldl_packStep_stripped maxSize (sectionTexts sep text) ([], [])
    (by intro u hu; cases hu)
  split at hc
  · exact hinv c hc
  · rcases List.mem_append.mp hc with hc | hc
    · exact hinv c hc
    · rw [List.mem_singleton] at hc
      subst hc
      exact pyStrip_idem _

theorem foldl_fallback_inv (cs : Nat) (text : List Char) (idxs : List Nat) :
    ∀ acc : List (List Char),
      (∀ c ∈ acc, pyStrip c = c ∧ c.length ≤ cs) →
      ∀ c ∈ idxs.foldl
        (fun acc i =>
          let chunk := (text.drop i).take cs
          if (pyStrip chunk).isEmpty then acc else acc ++ [pyStrip chunk]) acc,
        pyStrip c = c ∧ c.length ≤ cs := by
  induction idxs with
  | nil => exact fun acc h => h
  | cons i rest ih =>
    intro acc h1
    rw [List.foldl_cons]
    refine ih _ ?_
    intro c hc
    dsimp only at hc
    split at hc
    · exact h1 c hc
    · rcases List.mem_append.mp hc with hc | hc
      · exact h1 c hc
      · rw [List.mem_singleton] at hc
        subst hc
        refine ⟨pyStrip_idem _, ?_⟩
        refine le_trans (pyStrip_length_le _) ?_
        rw [List.length_take]
        exact Nat.min_le_left _ _

theorem split_text_spec (ts : TextSplitter) (text : List Char)
    (chunks : List (List Char)) (h : ts.split_text text = some chunks) :
    ∀ c ∈ chunks, pyStrip c = c ∧ 50 < c.length ∧
      c.length ≤
        (match separators.find? (fun sep => occursIn sep text) with
         | none => ts.chunk_size
         | some sep => max ts.chunk_size (maxLen (sectionTexts sep text))) := by
  intro c hc
  simp only [TextSplitter.split_text] at h
  cases hfind : separators.find? (fun sep => occursIn sep text) with
  | none =>
    rw [hfind] at h
    simp only [List.isEmpty_nil, if_true] at h
    cases hrange : pythonRange0 text.length ((ts.chunk_size : Int) - (ts.chunk_overlap : Int)) with
    | none => rw [hrange] at h; exact Option.noConfusion h
    | some idxs =>
      rw [hrange] at h
      simp only [Option.map_some'] at h
      obtain rfl := (Option.some_inj.mp h).symm
      rw [List.mem_filter] at hc
      have hmem := foldl_fallback_inv ts.chunk_size text idxs []
        (by intro u hu; cases hu) c hc.1
      have hlt : 50 < (pyStrip c).length := by simpa using hc.2
      rw [hmem.1] at hlt
      exact ⟨hmem.1, hlt, hmem.2⟩
  | some sep =>
    rw [hfind] at h
    by_cases hemp : (splitBySep sep ts.chunk_size text).isEmpty
    · rw [if_pos hemp] at h
      cases hrange : pythonRange0 text.length
          ((ts.chunk_size : Int) - (ts.chunk_overlap : Int)) with
      | none => rw [hrange] at h; exact Option.noConfusion h
      | some idxs =>
        rw [hrange] at h
        simp only [Option.map_some'] at h
        obtain rfl := (Option.some_inj.mp h).symm
        rw [List.mem_filter] at hc
        have hmem := foldl_fallback_inv ts.chunk_size text idxs []
          (by intro u hu; cases hu) c hc.1
        have hlt : 50 < (pyStrip c).length := by simpa using hc.2
        rw [hmem.1] at hlt
        exact ⟨hmem.1, hlt, le_trans hmem.2 (le_max_left _ _)⟩
    · rw [if_neg hemp] at h
      simp only [Option.map_some'] at h
      obtain rfl := (Option.some_inj.mp h).symm
      rw [List.mem_filter] at hc
      have hstr := splitBySep_stripped sep ts.chunk_size text c hc.1
      have hlt : 50 < (pyStrip c).length := by simpa using hc.2
      rw [hstr] at hlt
      exact ⟨hstr, hlt, splitBySep_bound sep ts.chunk_size text c hc.1⟩

/-! ### Properties of the selection pipeline -/

theorem IsArgsortOf.length_eq {ord : List Nat} {sims : List ℚ}
    (h : IsArgsortOf ord sims) : ord.length = sims.length :=
  h.1.length_eq.trans (List.length_range _)

theorem IsArgsortOf.mem_lt {ord : List Nat} {sims : List ℚ}
    (h : IsArgsortOf ord sims) {i : Nat} (hi : i ∈ ord) : i < sims.length :=
  List.mem_range.mp (h.1.mem_iff.mp hi)

theorem pySliceLast_sublist {α : Type} (xs : List α) (k : Int) :
    List.Sublist (pySliceLast xs k) xs := by
  unfold pySliceLast
  split
  · exact List.drop_sublist _ _
  · exact List.drop_sublist _ _

/-- The reversed last-`k` slice of an admissible argsort output — the
iteration order of the result loop — has non-increasing scores. -/
theorem top_pairwise_ge (ord : List Nat) (sims : List ℚ) (k : Int)
    (hord : IsArgsortOf ord sims) :
    ((pySliceLast ord k).reverse).Pairwise
      (fun i j => sims.getD j 0 ≤ sims.getD i 0) := by
  have hslice := hord.2.sublist (pySliceLast_sublist ord k)
  rw [List.pairwise_reverse]
  exact hslice

theorem searchSelect_scores (ord : List Nat) (sims : List ℚ) (k : Int)
    (hord : IsArgsortOf ord sims) :
    (searchSelect ord sims k).Pairwise (fun p q => q.2 ≤ p.2) := by
  have htop := top_pairwise_ge ord sims k hord
  simp only [searchSelect]
  split
  · refine List.Pairwise.map _ ?_ (htop.sublist (List.take_sublist _ _))
    intro a b h
    exact h
  · rw [List.pairwise_filterMap]
    refine htop.imp ?_
    intro a b hab x hx y hy
    have hxa : x = (a, sims.getD a 0) := by
      split at hx
      · exact (Option.some_inj.mp hx).symm
      · exact Option.noConfusion hx
    have hyb : y = (b, sims.getD b 0) := by
      split at hy
      · exact (Option.some_inj.mp hy).symm
      · exact Option.noConfusion hy
    subst hxa
    subst hyb
    exact hab

theorem searchSelect_length_le (ord : List Nat) (sims : List ℚ) (k : Int)
    (hk : 1 ≤ k) : (searchSelect ord sims k).length ≤ k.toNat := by
  have hlen : ((pySliceLast ord k).reverse).length ≤ k.toNat := by
    rw [List.length_reverse]
    unfold pySliceLast
    rw [if_pos (by omega : (0 : Int) < k)]
    rw [List.length_drop]
    omega
  simp only [searchSelect]
  split
  · rw [List.length_map]
    exact le_trans (List.length_take_le' _ _) hlen
  · exact le_trans (List.length_filterMap_le _ _) hlen

/-! ### Unfolding lemmas for the processor -/

theorem pySliceLast_length_pos {α : Type} (xs : List α) (k : Int) (hk : 0 < k) :
    (pySliceLast xs k).length = xs.length - (xs.length - k.toNat) := by
  unfold pySliceLast
  rw [if_pos hk, List.length_drop]

theorem newDocs_content (fn : String) (chunks : List (List Char)) :
    (chunks.enum.map (fun p => Document.mk p.2 fn p.1)).map Document.content
      = chunks := by
  rw [List.map_map]
  exact List.enum_map_snd chunks

theorem mem_chunks_of_mem_newDocs (fn : String) (chunks : List (List Char))
    (d : Document) (hd : d ∈ chunks.enum.map (fun p => Document.mk p.2 fn p.1)) :
    d.content ∈ chunks := by
  have h := List.mem_map_of_mem Document.content hd
  rwa [newDocs_content] at h

theorem search_documents_eq (self : DocumentProcessor) (sims : List ℚ)
    (ord : List Nat) (k : Int)
    (hfit : self.is_fitted = true) (hne : self.documents ≠ []) :
    search_documents self (some (sims, ord)) k =
      (searchSelect ord sims k).map
        (fun p => (self.documents.getD p.1 default, p.2)) := by
  have hie : self.documents.isEmpty = false := List.isEmpty_eq_false.mpr hne
  unfold search_documents
  rw [hfit, hie]
  rfl

theorem newDocs_ne_nil (fn : String) (chunks : List (List Char))
    (hchunks : chunks ≠ []) :
    (self₀ : List Document) →
      (self₀ ++ chunks.enum.map (fun p => Document.mk p.2 fn p.1)).isEmpty = false := by
  intro self₀
  rw [List.isEmpty_eq_false]
  intro h
  have h2 := (List.append_eq_nil.mp h).2
  rw [List.map_eq_nil_iff] at h2
  apply hchunks
  have h3 := congrArg List.length h2
  rw [List.enum_length] at h3
  exact List.length_eq_zero.mp h3

theorem process_file_fit_success (fitOk : List (List Char) → Bool)
    (self : DocumentProcessor) (fn : String) (text : List Char)
    (chunks : List (List Char))
    (hstrip : (pyStrip text).isEmpty = false)
    (hsplit : TextSplitter.split_text ⟨1500, 300⟩ text = some chunks)
    (hchunks : chunks ≠ [])
    (hfitOk : fitOk ((self.documents
      ++ chunks.enum.map (fun p => Document.mk p.2 fn p.1)).map
        Document.content) = true) :
    process_file fitOk self fn text =
      (⟨self.documents ++ chunks.enum.map (fun p => Document.mk p.2 fn p.1),
        some ⟨(self.documents
          ++ chunks.enum.map (fun p => Document.mk p.2 fn p.1)).map
            Document.content⟩, true⟩,
       ProcessOutcome.success chunks.length text.length) := by
  unfold process_file
  rw [hstrip, hsplit]
  simp only [Bool.false_eq_true, if_false]
  rw [newDocs_ne_nil fn chunks hchunks self.documents]
  simp only [Bool.false_eq_true, if_false, hfitOk, if_true]

theorem process_file_fit_failure (fitOk : List (List Char) → Bool)
    (self : DocumentProcessor) (fn : String) (text : List Char)
    (chunks : List (List Char))
    (hstrip : (pyStrip text).isEmpty = false)
    (hsplit : TextSplitter.split_text ⟨1500, 300⟩ text = some chunks)
    (hchunks : chunks ≠ [])
    (hfail : fitOk ((self.documents
      ++ chunks.enum.map (fun p => Document.mk p.2 fn p.1)).map
        Document.content) = false) :
    process_file fitOk self fn text =
      (⟨self.documents ++ chunks.enum.map (fun p => Document.mk p.2 fn p.1),
        self.document_vectors, self.is_fitted⟩,
       ProcessOutcome.error ("fit_transform raised an exception")) := by
  unfold process_file
  rw [hstrip, hsplit]
  simp only [Bool.false_eq_true, if_false]
  rw [newDocs_ne_nil fn chunks hchunks self.documents]
  simp only [Bool.false_eq_true, if_false, hfail]

/-! ### Claims -/

/-- **C2** (corrected): it is not true that every returned segment has length
at most `max_size`.  What holds: in fallback slicing mode every segment is at
most `max_size` characters (each fixed window is), while in delimiter-split
mode every segment is bounded by the maximum of `max_size` and the length of
the longest delimiter-prefixed piece — a single piece longer than `max_size`
becomes the buffer on its own and is flushed oversized. -/
theorem split_text_length_bound (ts : TextSplitter) (text : List Char)
    (chunks : List (List Char)) (h : ts.split_text text = some chunks) :
    ∀ c ∈ chunks,
      c.length ≤
        (match separators.find? (fun sep => occursIn sep text) with
         | none => ts.chunk_size
         | some sep => max ts.chunk_size (maxLen (sectionTexts sep text))) :=
  fun c hc => (split_text_spec ts text chunks h c hc).2.2

set_option maxRecDepth 1000000 in
/-- Counterexample to C2 as stated: with `max_size = 10`, the text
`'x'*60 ++ "\n\n" ++ 'y'*60` splits at the `"\n\n"` delimiter into two pieces
of length 60 and 62; both flushed segments have length 60 > 10. -/
theorem split_text_oversize_counterexample :
    TextSplitter.split_text ⟨10, 3⟩
        (List.replicate 60 'x' ++ '\n' :: '\n' :: List.replicate 60 'y') =
      some [List.replicate 60 'x', List.replicate 60 'y'] ∧
    List.replicate 60 'x' ∈
      [List.replicate 60 'x', List.replicate 60 'y'] ∧
    10 < (List.replicate 60 'x').length := by
  refine ⟨by decide, by decide, by decide⟩

set_option maxRecDepth 1000000 in
/-- Witness for C2's amended bound at the same concrete input. -/
theorem split_text_length_bound_witness :
    (List.replicate 60 'x').length ≤
      (match separators.find? (fun sep => occursIn sep
          (List.replicate 60 'x' ++ '\n' :: '\n' :: List.replicate 60 'y')) with
       | none => (10 : Nat)
       | some sep => max 10 (maxLen (sectionTexts sep
          (List.replicate 60 'x' ++ '\n' :: '\n' :: List.replicate 60 'y')))) :=
  split_text_length_bound ⟨10, 3⟩
    (List.replicate 60 'x' ++ '\n' :: '\n' :: List.replicate 60 'y')
    [List.replicate 60 'x', List.replicate 60 'y'] (by decide)
    (List.replicate 60 'x') (by decide)

set_option maxRecDepth 1000000 in
/-- **C5** (code bug): the fallback step is `chunk_size - chunk_overlap`
with no clamping (line 104).  On delimiter-free text with
`max_size = overlap` the call `range(0, len(text), 0)` raises `ValueError`
(modelled as `none`), contradicting the required "terminates and returns";
with `max_size < overlap` the negative step makes the range empty, so the
call returns an empty chunk list. -/
theorem fallback_zero_step_raises :
    TextSplitter.split_text ⟨10, 10⟩ (List.replicate 60 'x') = none ∧
    TextSplitter.split_text ⟨8, 10⟩ (List.replicate 60 'x') = some [] := by
  exact ⟨by decide, by decide⟩

/-- **C7** (confirmed): `search_documents` is a total function of the
oracle-supplied similarity outcome; when the vectorization/transform step
raises (oracle `none`), the `except` handler yields the empty result list,
and no exception propagates. -/
theorem search_never_raises (self : DocumentProcessor) (k : Int) :
    search_documents self none k = [] := by
  unfold search_documents
  split
  · rfl
  · rfl

/-- **C8** (confirmed): every chunk emitted by `split_text` is stripped and
strictly longer than 50 characters; `process_file` preserves the corpus
invariant (it appends only such chunks); `clear_all` trivially restores
it. -/
theorem corpus_segment_invariant :
    (∀ (ts : TextSplitter) (text : List Char) (chunks : List (List Char)),
        ts.split_text text = some chunks →
        ∀ c ∈ chunks, pyStrip c = c ∧ 50 < c.length) ∧
    (∀ (fitOk : List (List Char) → Bool) (self : DocumentProcessor)
        (fn : String) (text : List Char),
        corpusInv self → corpusInv (process_file fitOk self fn text).1) ∧
    (∀ self : DocumentProcessor, corpusInv (clear_all self)) := by
  refine ⟨?_, ?_, ?_⟩
  · intro ts text chunks h c hc
    exact ⟨(split_text_spec ts text chunks h c hc).1,
      (split_text_spec ts text chunks h c hc).2.1⟩
  · intro fitOk self fn text hinv
    simp only [process_file]
    split
    · exact hinv
    · split
      · exact hinv
      · rename_i chunks heq
        have common : ∀ d ∈ self.documents
            ++ chunks.enum.map (fun p => Document.mk p.2 fn p.1),
            pyStrip d.content = d.content ∧ 50 < d.content.length := by
          intro d hd
          rcases List.mem_append.mp hd with hd | hd
          · exact hinv d hd
          · have hc := mem_chunks_of_mem_newDocs fn chunks d hd
            have hs := split_text_spec ⟨1500, 300⟩ text chunks heq d.content hc
            exact ⟨hs.1, hs.2.1⟩
        split
        · exact common
        · split
          · exact common
          · exact common
  · intro self
    unfold corpusInv
    intro d hd
    exact absurd hd (List.not_mem_nil d)

set_option maxRecDepth 1000000 in
/-- Witness for C8: the invariant holds on the state produced by a concrete
successful ingest into the initial (empty) processor. -/
theorem corpus_segment_invariant_witness :
    corpusInv (process_file (fun _ => true) DocumentProcessor.init ("w.txt")
      (List.replicate 60 'w')).1 :=
  corpus_segment_invariant.2.1 (fun _ => true) DocumentProcessor.init ("w.txt")
    (List.replicate 60 'w')
    (fun d hd => absurd hd (List.not_mem_nil d))

/-- **C1** (corrected): for a fitted non-empty corpus, any index order that
`sims.argsort()` may return (see `IsArgsortOf`) and any `k ≥ 1`,
`search_documents` returns at most `k` results, with non-increasing scores.
The claimed ascending-index tie order is NOT a property of the program:
numpy's default sort leaves the relative order of equal scores unspecified,
and at the traced two-segment input numpy's actual output puts the LARGER
insertion index first; for `k = 0` the slice `[-0:]` selects the whole
array, so the `≤ k` bound needs `k ≥ 1`.  Both failures are exhibited by the
counterexample. -/
theorem search_topk_ordering (self : DocumentProcessor) (sims : List ℚ)
    (ord : List Nat) (k : Int) (hfit : self.is_fitted = true)
    (hne : self.documents ≠ []) (hord : IsArgsortOf ord sims) (hk : 1 ≤ k) :
    (search_documents self (some (sims, ord)) k).length ≤ k.toNat ∧
    (search_documents self (some (sims, ord)) k).Pairwise
      (fun a b => b.2 ≤ a.2) := by
  rw [search_documents_eq self sims ord k hfit hne]
  constructor
  · rw [List.length_map]
    exact searchSelect_length_le ord sims k hk
  · refine List.Pairwise.map _ ?_ (searchSelect_scores ord sims k hord)
    intro a b h
    exact h

set_option maxRecDepth 1000000 in
/-- Counterexample to C1 as stated.  For the two-element tied similarity row
`[1, 1]`, numpy's argsort in fact returns `[0, 1]` (below numpy's
small-array cutoff the introsort is an insertion sort), an admissible
output; after the `[::-1]` reversal the segment with insertion index 1 is
returned FIRST, refuting the earlier-index-wins tie order.  And with
`k = 0`, the slice `sims.argsort()[-0:]` is the whole array, so the search
returns 2 > 0 = k results, refuting "at most k" at `k = 0`. -/
theorem search_tie_order_counterexample :
    IsArgsortOf [0, 1] [(1 : ℚ), (1 : ℚ)] ∧
    search_documents
        ⟨[⟨List.replicate 60 'a', "t.txt", 0⟩, ⟨List.replicate 60 'b', "t.txt", 1⟩],
          some ⟨[List.replicate 60 'a', List.replicate 60 'b']⟩, true⟩
        (some ([(1 : ℚ), (1 : ℚ)], [0, 1])) 15 =
      [(⟨List.replicate 60 'b', "t.txt", 1⟩, (1 : ℚ)),
       (⟨List.replicate 60 'a', "t.txt", 0⟩, (1 : ℚ))] ∧
    (⟨List.replicate 60 'b', "t.txt", 1⟩ : Document)
      ≠ ⟨List.replicate 60 'a', "t.txt", 0⟩ ∧
    (search_documents
        ⟨[⟨List.replicate 60 'a', "t.txt", 0⟩, ⟨List.replicate 60 'b', "t.txt", 1⟩],
          some ⟨[List.replicate 60 'a', List.replicate 60 'b']⟩, true⟩
        (some ([(1 : ℚ), (1 : ℚ)], [0, 1])) 0).length = 2 := by
  refine ⟨by decide, by decide, by decide, by decide⟩

set_option maxRecDepth 1000000 in
/-- Witness for C1's amended ordering guarantees at a concrete fitted state
(distinct scores; `[1, 0]` is the unique admissible argsort output). -/
theorem search_topk_ordering_witness :
    (search_documents
        ⟨[⟨List.replicate 60 'a', "t.txt", 0⟩, ⟨List.replicate 60 'b', "t.txt", 1⟩],
          some ⟨[List.replicate 60 'a', List.replicate 60 'b']⟩, true⟩
        (some ([(1 : ℚ), (0 : ℚ)], [1, 0])) 2).length ≤ (2 : Int).toNat :=
  (search_topk_ordering
    ⟨[⟨List.replicate 60 'a', "t.txt", 0⟩, ⟨List.replicate 60 'b', "t.txt", 1⟩],
      some ⟨[List.replicate 60 'a', List.replicate 60 'b']⟩, true⟩
    [(1 : ℚ), (0 : ℚ)] [1, 0] 2 rfl (by decide) (by decide) (by decide)).1

/-- **C6** (confirmed, at the source default `k = 15`, and generally for any
`k ≥ 3` and any admissible argsort output): when every similarity score is
at or below the `0.001` threshold — so the threshold filter removes every
candidate — `search_documents` on a fitted non-empty corpus returns exactly
the first three of the top indices, hence at least `min 3 corpus_size`
results. -/
theorem search_fallback_min_results (self : DocumentProcessor)
    (sims : List ℚ) (ord : List Nat) (k : Int)
    (hfit : self.is_fitted = true) (hne : self.documents ≠ [])
    (hlen : sims.length = self.documents.length)
    (hord : IsArgsortOf ord sims) (hk : 3 ≤ k)
    (hall : ∀ q ∈ sims, q ≤ simThreshold) :
    search_documents self (some (sims, ord)) k =
      ((pySliceLast ord k).reverse.take 3).map
        (fun idx => (self.documents.getD idx default, sims.getD idx 0)) ∧
    min 3 self.documents.length ≤
      (search_documents self (some (sims, ord)) k).length := by
  have hfm : List.filterMap
      (fun idx => if simThreshold < sims.getD idx 0
        then some (idx, sims.getD idx 0) else none)
      ((pySliceLast ord k).reverse) = [] := by
    rw [List.filterMap_eq_nil_iff]
    intro idx hidx
    rw [if_neg]
    have hmem : idx ∈ ord :=
      (pySliceLast_sublist ord k).subset (List.mem_reverse.mp hidx)
    have hlt := hord.mem_lt hmem
    rw [List.getD_eq_getElem sims 0 hlt]
    exact not_lt.mpr (hall _ (List.getElem_mem hlt))
  have hsel : searchSelect ord sims k =
      ((pySliceLast ord k).reverse.take 3).map
        (fun idx => (idx, sims.getD idx 0)) := by
    simp only [searchSelect]
    rw [hfm]
    rfl
  have heq : search_documents self (some (sims, ord)) k =
      ((pySliceLast ord k).reverse.take 3).map
        (fun idx => (self.documents.getD idx default, sims.getD idx 0)) := by
    rw [search_documents_eq self sims ord k hfit hne, hsel, List.map_map]
    rfl
  refine ⟨heq, ?_⟩
  rw [heq, List.length_map, List.length_take, List.length_reverse,
    pySliceLast_length_pos _ _ (by omega), hord.length_eq, hlen]
  omega

set_option maxRecDepth 1000000 in
/-- Witness for C6: a two-segment fitted corpus where both scores are zero
still yields `min 3 2 = 2` results. -/
theorem search_fallback_min_results_witness :
    min 3 (([⟨List.replicate 60 'a', "t.txt", 0⟩,
        ⟨List.replicate 60 'b', "t.txt", 1⟩] : List Document)).length ≤
      (search_documents
        ⟨[⟨List.replicate 60 'a', "t.txt", 0⟩, ⟨List.replicate 60 'b', "t.txt", 1⟩],
          some ⟨[List.replicate 60 'a', List.replicate 60 'b']⟩, true⟩
        (some ([(0 : ℚ), (0 : ℚ)], [0, 1])) 15).length :=
  (search_fallback_min_results
    ⟨[⟨List.replicate 60 'a', "t.txt", 0⟩, ⟨List.replicate 60 'b', "t.txt", 1⟩],
      some ⟨[List.replicate 60 'a', List.replicate 60 'b']⟩, true⟩
    [(0 : ℚ), (0 : ℚ)] [0, 1] 15 rfl (by decide) (by decide) (by decide)
    (by decide) (by decide)).2

/-- **C3** (corrected): the matrix/corpus consistency invariant is preserved
by `clear_all`, and by every `process_file` PROVIDED the vector re-fit
succeeds; when the re-fit raises, the appended segments are left paired with
the previous (now stale) matrix — see the counterexample. -/
theorem index_consistency (fitOk : List (List Char) → Bool)
    (self : DocumentProcessor) (fn : String) (text : List Char)
    (hfitOk : ∀ ts, fitOk ts = true) (hself : matrixConsistent self) :
    matrixConsistent (process_file fitOk self fn text).1 ∧
    matrixConsistent (clear_all self) := by
  constructor
  · simp only [process_file]
    split
    · exact hself
    · split
      · exact hself
      · rename_i chunks heq
        split
        · rename_i hde
          unfold matrixConsistent at hself ⊢
          intro m hm
          have h0 := hself m hm
          have hnil : self.documents
              ++ chunks.enum.map (fun p => Document.mk p.2 fn p.1) = [] :=
            List.isEmpty_iff.mp hde
          have h1 := (List.append_eq_nil.mp hnil).1
          show m.texts = (self.documents
            ++ chunks.enum.map (fun p => Document.mk p.2 fn p.1)).map
              Document.content
          rw [hnil, h0, h1]
        · split
          · unfold matrixConsistent
            intro m hm
            have hm2 : some (⟨(self.documents
                ++ chunks.enum.map (fun p => Document.mk p.2 fn p.1)).map
                  Document.content⟩ : TfidfMatrix) = some m := hm
            injection hm2 with h2
            show m.texts = (self.documents
              ++ chunks.enum.map (fun p => Document.mk p.2 fn p.1)).map
                Document.content
            rw [← h2]
          · rename_i hfalse
            exact absurd (hfitOk _) hfalse
  · unfold matrixConsistent
    intro m hm
    exact Option.noConfusion hm

set_option maxRecDepth 1000000 in
/-- Counterexample to C3 as stated, along a trace whose fit outcomes match
`TfidfVectorizer(min_df=2, max_df=0.85)` exactly.  Seven single-segment
uploads: `'x'*60` six times (all sharing their one term) with `'y'*60` as
the third.  With `n` corpus segments and the shared term in `d` of them,
the fit succeeds iff some term survives the pruning, i.e. `2 ≤ d` and
`d ≤ 0.85·n`: it fails at `n = 1` (`d = 1 < 2`) and `n = 2`
(`d/n = 1 > 0.85`), succeeds for `n = 3, 4, 5, 6`
(`d/n = 2/3, 3/4, 4/5, 5/6 ≤ 0.85`), and fails again at `n = 7`
(`d/n = 6/7 > 0.85` while every other term has `d = 1 < 2`).  The oracle
`3 ≤ n ∧ n ≤ 6` reproduces these outcomes at every corpus this trace
reaches.  After six uploads the state is FITTED and matrix-consistent; the
seventh ingest appends its segment, the re-fit raises, and the 7-segment
corpus is left with the 6-row matrix — stale. -/
theorem index_consistency_counterexample :
    matrixConsistent
      (ingestAll (fun ts => decide (3 ≤ ts.length) && decide (ts.length ≤ 6))
        DocumentProcessor.init
        [("f1.txt", List.replicate 60 'x'), ("f2.txt", List.replicate 60 'x'),
         ("f3.txt", List.replicate 60 'y'), ("f4.txt", List.replicate 60 'x'),
         ("f5.txt", List.replicate 60 'x'), ("f6.txt", List.replicate 60 'x')]) ∧
    (ingestAll (fun ts => decide (3 ≤ ts.length) && decide (ts.length ≤ 6))
        DocumentProcessor.init
        [("f1.txt", List.replicate 60 'x'), ("f2.txt", List.replicate 60 'x'),
         ("f3.txt", List.replicate 60 'y'), ("f4.txt", List.replicate 60 'x'),
         ("f5.txt", List.replicate 60 'x'),
         ("f6.txt", List.replicate 60 'x')]).is_fitted = true ∧
    ¬ matrixConsistent
        (process_file
          (fun ts => decide (3 ≤ ts.length) && decide (ts.length ≤ 6))
          (ingestAll
            (fun ts => decide (3 ≤ ts.length) && decide (ts.length ≤ 6))
            DocumentProcessor.init
            [("f1.txt", List.replicate 60 'x'), ("f2.txt", List.replicate 60 'x'),
             ("f3.txt", List.replicate 60 'y'), ("f4.txt", List.replicate 60 'x'),
             ("f5.txt", List.replicate 60 'x'), ("f6.txt", List.replicate 60 'x')])
          ("f7.txt") (List.replicate 60 'x')).1 := by
  refine ⟨by decide, by decide, by decide⟩

set_option maxRecDepth 1000000 in
/-- Witness for C3's amended preservation at a concrete successful ingest. -/
theorem index_consistency_witness :
    matrixConsistent (process_file (fun _ => true) DocumentProcessor.init
      ("a.txt") (List.replicate 60 'x')).1 ∧
    matrixConsistent (clear_all DocumentProcessor.init) :=
  index_consistency (fun _ => true) DocumentProcessor.init ("a.txt")
    (List.replicate 60 'x') (fun _ => rfl)
    (fun _ hm => Option.noConfusion hm)

/-- **C4** (corrected): the fit-status state machine holds PROVIDED the
vector re-fit succeeds: an ingest whose chunking accepts at least one
segment moves any state to FITTED with a matrix rebuilt from the whole new
corpus; `clear_all` yields UNFITTED from any state; and in an UNFITTED state
`search_documents` returns `[]` for every query outcome and every `k`.
When the re-fit raises instead, an accepting ingest leaves `is_fitted`
unchanged (see the counterexample). -/
theorem fit_state_machine (fitOk : List (List Char) → Bool)
    (self : DocumentProcessor) (fn : String) (text : List Char)
    (chunks : List (List Char)) (simsQ : Option (List ℚ × List Nat)) (k : Int)
    (hfitOk : ∀ ts, fitOk ts = true)
    (hstrip : (pyStrip text).isEmpty = false)
    (hsplit : TextSplitter.split_text ⟨1500, 300⟩ text = some chunks)
    (hchunks : chunks ≠ []) :
    (process_file fitOk self fn text).1.is_fitted = true ∧
    (process_file fitOk self fn text).1.document_vectors =
      some ⟨(self.documents
        ++ chunks.enum.map (fun p => Document.mk p.2 fn p.1)).map
          Document.content⟩ ∧
    (clear_all self).is_fitted = false ∧
    (self.is_fitted = false → search_documents self simsQ k = []) := by
  rw [process_file_fit_success fitOk self fn text chunks hstrip hsplit
    hchunks (hfitOk _)]
  refine ⟨rfl, rfl, rfl, ?_⟩
  intro hf
  simp [search_documents, hf]

set_option maxRecDepth 1000000 in
/-- Counterexample to C4 as stated: from UNFITTED, an ingest that accepts
one segment but whose re-fit raises (as sklearn's `min_df`/`max_df` pruning
in fact does on any single-segment corpus) reports an error and leaves the
state UNFITTED. -/
theorem fit_state_machine_counterexample :
    (process_file (fun _ => false) DocumentProcessor.init ("a.txt")
        (List.replicate 60 'x')).1.is_fitted = false ∧
    (process_file (fun _ => false) DocumentProcessor.init ("a.txt")
        (List.replicate 60 'x')).1.documents.length = 1 ∧
    (process_file (fun _ => false) DocumentProcessor.init ("a.txt")
        (List.replicate 60 'x')).2 =
      ProcessOutcome.error ("fit_transform raised an exception") := by
  exact ⟨by decide, by decide, by decide⟩

set_option maxRecDepth 1000000 in
/-- Witness for C4's amended state machine at a concrete accepting ingest. -/
theorem fit_state_machine_witness :
    (process_file (fun _ => true) DocumentProcessor.init ("a.txt")
      (List.replicate 60 'x')).1.is_fitted = true :=
  (fit_state_machine (fun _ => true) DocumentProcessor.init ("a.txt")
    (List.replicate 60 'x') [List.replicate 60 'x'] none 15
    (fun _ => rfl) (by decide) (by decide) (by decide)).1

/-- **C9** (corrected): after `clear_all` every search returns `[]`, and a
subsequent accepting ingest leaves exactly the new document's segments as
the corpus — no segments or vocabulary carried over — and, PROVIDED the
re-fit succeeds, returns the processor to FITTED with the vocabulary fitted
on exactly the new segments.  When the re-fit raises (which on a
one-segment corpus it always does under `min_df = 2`/`max_df = 0.85`), the
processor stays UNFITTED — see the counterexample. -/
theorem clear_then_ingest (self : DocumentProcessor)
    (fitOk : List (List Char) → Bool) (fn : String) (text : List Char)
    (chunks : List (List Char)) (simsQ : Option (List ℚ × List Nat)) (k : Int)
    (hfitOk : ∀ ts, fitOk ts = true)
    (hstrip : (pyStrip text).isEmpty = false)
    (hsplit : TextSplitter.split_text ⟨1500, 300⟩ text = some chunks)
    (hchunks : chunks ≠ []) :
    search_documents (clear_all self) simsQ k = [] ∧
    (process_file fitOk (clear_all self) fn text).1.documents =
      chunks.enum.map (fun p => Document.mk p.2 fn p.1) ∧
    (process_file fitOk (clear_all self) fn text).1.is_fitted = true ∧
    (process_file fitOk (clear_all self) fn text).1.document_vectors =
      some ⟨chunks⟩ := by
  rw [process_file_fit_success fitOk (clear_all self) fn text chunks hstrip
    hsplit hchunks (hfitOk _)]
  refine ⟨?_, ?_, rfl, ?_⟩
  · simp [search_documents, clear_all]
  · exact List.nil_append _
  · have hmap : ((clear_all self).documents
        ++ chunks.enum.map (fun p => Document.mk p.2 fn p.1)).map
          Document.content = chunks := by
      rw [show (clear_all self).documents = [] from rfl, List.nil_append,
        newDocs_content]
    rw [hmap]

set_option maxRecDepth 1000000 in
/-- Counterexample to C9 as stated: after `clear`, ingesting a document that
yields one accepted segment does NOT return the processor to FITTED when the
re-fit raises — which, for a one-segment corpus, sklearn's pruning in fact
guarantees. -/
theorem clear_then_ingest_counterexample :
    (process_file (fun _ => false)
        (clear_all ⟨[⟨List.replicate 60 'z', "old.txt", 0⟩],
          some ⟨[List.replicate 60 'z']⟩, true⟩) ("a.txt")
        (List.replicate 60 'x')).1.is_fitted = false ∧
    (process_file (fun _ => false)
        (clear_all ⟨[⟨List.replicate 60 'z', "old.txt", 0⟩],
          some ⟨[List.replicate 60 'z']⟩, true⟩) ("a.txt")
        (List.replicate 60 'x')).1.documents.length = 1 := by
  exact ⟨by decide, by decide⟩

set_option maxRecDepth 1000000 in
/-- Witness for C9's amended claim at a concrete clear-then-ingest trace. -/
theorem clear_then_ingest_witness :
    (process_file (fun _ => true)
      (clear_all ⟨[⟨List.replicate 60 'z', "old.txt", 0⟩],
        some ⟨[List.replicate 60 'z']⟩, true⟩) ("a.txt")
      (List.replicate 60 'x')).1.documents =
      ([List.replicate 60 'x'] : List (List Char)).enum.map
        (fun p => Document.mk p.2 ("a.txt") p.1) :=
  (clear_then_ingest
    ⟨[⟨List.replicate 60 'z', "old.txt", 0⟩],
      some ⟨[List.replicate 60 'z']⟩, true⟩
    (fun _ => true) ("a.txt") (List.replicate 60 'x')
    [List.replicate 60 'x'] none 15
    (fun _ => rfl) (by decide) (by decide) (by decide)).2.1

/-- **C10** (confirmed): when chunking accepts at least one segment but the
re-fit raises, `process_file` reports an error outcome while the newly
chunked segments remain appended to the corpus and the previous
`document_vectors` and `is_fitted` values are left unchanged — neither
rebuilt nor rolled back. -/
theorem ingest_not_atomic_on_fit_failure (fitOk : List (List Char) → Bool)
    (self : DocumentProcessor) (fn : String) (text : List Char)
    (chunks : List (List Char))
    (hstrip : (pyStrip text).isEmpty = false)
    (hsplit : TextSplitter.split_text ⟨1500, 300⟩ text = some chunks)
    (hchunks : chunks ≠ [])
    (hfail : fitOk ((self.documents
      ++ chunks.enum.map (fun p => Document.mk p.2 fn p.1)).map
        Document.content) = false) :
    (process_file fitOk self fn text).2 =
      ProcessOutcome.error ("fit_transform raised an exception") ∧
    (process_file fitOk self fn text).1.documents =
      self.documents ++ chunks.enum.map (fun p => Document.mk p.2 fn p.1) ∧
    (process_file fitOk self fn text).1.document_vectors =
      self.document_vectors ∧
    (process_file fitOk self fn text).1.is_fitted = self.is_fitted := by
  rw [process_file_fit_failure fitOk self fn text chunks hstrip hsplit
    hchunks hfail]
  exact ⟨rfl, rfl, rfl, rfl⟩

set_option maxRecDepth 1000000 in
/-- Witness for C10 at a concrete fitted state and failing re-fit. -/
theorem ingest_not_atomic_witness :
    (process_file (fun _ => false)
      ⟨[⟨List.replicate 60 'a', "a.txt", 0⟩],
        some ⟨[List.replicate 60 'a']⟩, true⟩
      ("b.txt") (List.replicate 60 'b')).2 =
      ProcessOutcome.error ("fit_transform raised an exception") :=
  (ingest_not_atomic_on_fit_failure (fun _ => false)
    ⟨[⟨List.replicate 60 'a', "a.txt", 0⟩],
      some ⟨[List.replicate 60 'a']⟩, true⟩
    ("b.txt") (List.replicate 60 'b') [List.replicate 60 'b']
    (by decide) (by decide) (by decide) rfl).1
